import Mathlib

/-!
Verification development for the RelayToGraphFromSMTP relay (main.go).

The embedding models the program's own code: the SMTP session state machine
(`Session.Mail`, `Session.Rcpt`, `Session.Data`, `Session.Reset`,
`Session.Logout`), the shared transaction store (`TransactionManager` with its
`cleanup` sweep), the content transformer (`processEmail`,
`processEmailContent`, `buildGraphMessage`, `buildRecipients`) and the delivery
retry loop (`sendMail`).

Modelling conventions:
- Go maps become association lists with at most one binding per key
  (`mapInsert` erases the old binding before consing).
- Times (UnixNano stamps, `time.Now()` values, sleep durations) are `Nat`
  "time units"; the delivery backoff unit is one second, the reclamation
  threshold five minutes = 300 units.
- Part bodies are modelled as byte strings: one `Char` per byte, faithful for
  the ASCII/Latin-1 content exercised here; `base64EncodeStr` encodes those
  bytes exactly as Go's `base64.StdEncoding`.
- External collaborators (go-message MIME parsing, the HTTP transport) are
  inputs: a parse either fails (`none`) or yields the header fields and the
  MIME walk that the library would deliver; each network attempt's outcome is
  a function from the attempt index to `Option String` (an error or success).
- `strings.EqualFold` / `strings.ToLower` are modelled with `lowerStr`
  (character-wise `Char.toLower`), exact on the ASCII addresses involved.
-/

/-- Go's `strings.ToLower`, character by character (kernel-computable, unlike
`String.toLower`). -/
def lowerStr (s : String) : String := ⟨s.toList.map Char.toLower⟩

/-- Case-insensitive equality, modelling Go's `strings.EqualFold`. -/
def equalFold (a b : String) : Bool := lowerStr a == lowerStr b

/-- `charsEqPre pre s` is true when `pre` starts the list `s`. -/
def charsEqPre : List Char → List Char → Bool
  | [], _ => true
  | _ :: _, [] => false
  | a :: as, b :: bs => a == b && charsEqPre as bs

/-- Substring search over character lists, modelling Go's `strings.Contains`. -/
def containsSub (sub : List Char) : List Char → Bool
  | [] => sub.isEmpty
  | c :: rest => charsEqPre sub (c :: rest) || containsSub sub rest

/-- Go's `strings.Contains`. -/
def strContains (s sub : String) : Bool := containsSub sub.toList s.toList

/-- Left-to-right non-overlapping replacement with a fuel counter; the fuel is
set to the haystack length, enough for every step. -/
def replaceAllAux (old new : List Char) : Nat → List Char → List Char
  | 0, s => s
  | _ + 1, [] => []
  | fuel + 1, c :: rest =>
    if charsEqPre old (c :: rest) && !old.isEmpty then
      new ++ replaceAllAux old new fuel ((c :: rest).drop old.length)
    else c :: replaceAllAux old new fuel rest

/-- Go's `strings.ReplaceAll s old new` (for the non-empty patterns used here). -/
def replaceAll (s old new : String) : String :=
  ⟨replaceAllAux old.toList new.toList s.toList.length s.toList⟩

/-- Go's `strings.Trim`: drop leading and trailing characters of the cutset. -/
def trimCutset (s : String) (cutset : List Char) : String :=
  ⟨((s.toList.dropWhile (fun c => cutset.contains c)).reverse.dropWhile
      (fun c => cutset.contains c)).reverse⟩

/-- The standard base64 alphabet. -/
def base64Table : List Char :=
  "ABCDEFGHIJKLMNOPQRSTUVWXYZabcdefghijklmnopqrstuvwxyz0123456789+/".toList

/-- Character of the standard base64 alphabet at an index. -/
def b64char (n : Nat) : Char := base64Table.getD n '='

/-- Go's `base64.StdEncoding.EncodeToString` over a byte list. -/
def base64EncodeBytes : List Nat → String
  | [] => ""
  | [a] => ⟨[b64char (a / 4), b64char (a % 4 * 16), '=', '=']⟩
  | [a, b] => ⟨[b64char (a / 4), b64char (a % 4 * 16 + b / 16), b64char (b % 16 * 4), '=']⟩
  | a :: b :: c :: rest =>
    (⟨[b64char (a / 4), b64char (a % 4 * 16 + b / 16), b64char (b % 16 * 4 + c / 64),
       b64char (c % 64)]⟩ : String) ++ base64EncodeBytes rest

/-- Base64 of a body modelled as a byte string (one `Char` per byte). -/
def base64EncodeStr (s : String) : String :=
  base64EncodeBytes (s.toList.map Char.toNat)

/-- `EmailTransaction` of main.go: sender, recipients and raw data segments. -/
structure EmailTransaction where
  from_ : String
  to_ : List String
  cc : List String
  bcc : List String
  dataBuffers : List String
deriving Repr, DecidableEq

/-- `EmailTransaction.addRecipient`: append unless a case-insensitive
duplicate is already present. -/
def addRecipient (e : EmailTransaction) (rcpt : String) : EmailTransaction :=
  if e.to_.any (fun r => equalFold r rcpt) then e
  else { e with to_ := e.to_ ++ [rcpt] }

/-- `EmailTransaction.appendData`: append one raw segment. -/
def appendData (e : EmailTransaction) (content : String) : EmailTransaction :=
  { e with dataBuffers := e.dataBuffers ++ [content] }

/-- `EmailTransaction.resetAll`: clear sender, recipients and data buffers. -/
def resetAll (e : EmailTransaction) : EmailTransaction :=
  { e with from_ := "", to_ := [], dataBuffers := [] }

/-- Association-list lookup, modelling a Go map read. -/
def mapLookup {α : Type} : List (String × α) → String → Option α
  | [], _ => none
  | (k', v) :: rest, k => if k' = k then some v else mapLookup rest k

/-- Association-list key removal, modelling Go's `delete`. -/
def mapErase {α : Type} : List (String × α) → String → List (String × α)
  | [], _ => []
  | p :: rest, k => if p.1 = k then mapErase rest k else p :: mapErase rest k

/-- Association-list overwrite, modelling a Go map assignment. -/
def mapInsert {α : Type} (m : List (String × α)) (k : String) (v : α) : List (String × α) :=
  (k, v) :: mapErase m k

theorem mapLookup_erase_self {α : Type} (m : List (String × α)) (k : String) :
    mapLookup (mapErase m k) k = none := by
  induction m with
  | nil => rfl
  | cons p rest ih =>
    by_cases hp : p.1 = k
    · simpa [mapErase, hp] using ih
    · simpa [mapErase, mapLookup, hp] using ih

theorem mapLookup_erase_ne {α : Type} (m : List (String × α)) (k k' : String)
    (h : k' ≠ k) : mapLookup (mapErase m k) k' = mapLookup m k' := by
  induction m with
  | nil => rfl
  | cons p rest ih =>
    by_cases hp : p.1 = k
    · have hkk : ¬ (k = k') := fun hk => h hk.symm
      simpa [mapErase, mapLookup, hp, hkk] using ih
    · by_cases hq : p.1 = k'
      · simp [mapErase, mapLookup, hp, hq, h]
      · simpa [mapErase, mapLookup, hp, hq] using ih

theorem mapLookup_insert_self {α : Type} (m : List (String × α)) (k : String) (v : α) :
    mapLookup (mapInsert m k v) k = some v := by
  simp [mapInsert, mapLookup]

theorem mapLookup_insert_ne {α : Type} (m : List (String × α)) (k k' : String) (v : α)
    (h : k' ≠ k) : mapLookup (mapInsert m k v) k' = mapLookup m k' := by
  have : k ≠ k' := fun hk => h hk.symm
  simp [mapInsert, mapLookup, this]
  exact mapLookup_erase_ne m k k' h

/-- The shared `TransactionManager`: transaction rows plus last-touched stamps. -/
structure TransactionManager where
  transactions : List (String × EmailTransaction)
  timeouts : List (String × Nat)
deriving Repr, DecidableEq

/-- Keys of `timeouts` entries older than the five-minute threshold. -/
def staleKeys (timeouts : List (String × Nat)) (now : Nat) : List String :=
  (timeouts.filter (fun p => decide (300 < now - p.2))).map Prod.fst

/-- One pass of `TransactionManager.cleanup`: delete every row whose timestamp
exceeds the five-minute abandonment threshold. -/
def cleanup (gm : TransactionManager) (now : Nat) : TransactionManager :=
  { transactions := gm.transactions.filter (fun p => !((staleKeys gm.timeouts now).contains p.1)),
    timeouts := gm.timeouts.filter (fun p => !((staleKeys gm.timeouts now).contains p.1)) }

/-- Per-connection `Session` state of main.go. -/
structure Session where
  sessionID : String
  currentKey : String
  activeEmail : String
  pendingKeys : List String
deriving Repr, DecidableEq

/-- `Session.Mail`: record the sender, build a fresh timestamped key and insert
a fresh transaction row under it; always succeeds. The UnixNano stamp and the
`time.Now()` value are explicit inputs. -/
def sessionMail (s : Session) (gm : TransactionManager) (from_ : String)
    (transactionTime now : Nat) : Session × TransactionManager :=
  let key := s.sessionID ++ ":" ++ from_ ++ ":" ++ toString transactionTime
  ({ s with activeEmail := from_, currentKey := key },
   { transactions := mapInsert gm.transactions key ⟨from_, [], [], [], []⟩,
     timeouts := mapInsert gm.timeouts key now })

/-- `Session.Rcpt`: require an active key and an existing row, then append the
recipient (case-insensitive dedup) and refresh the timestamp. The first
component is the returned error, `none` on success. -/
def sessionRcpt (s : Session) (gm : TransactionManager) (to_ : String)
    (now : Nat) : Option String × TransactionManager :=
  if s.currentKey = "" then (some "no active transaction", gm)
  else
    match mapLookup gm.transactions s.currentKey with
    | none => (some "transaction not found", gm)
    | some tr =>
      (none,
       { transactions := mapInsert gm.transactions s.currentKey (addRecipient tr to_),
         timeouts := mapInsert gm.timeouts s.currentKey now })

/-- Header fields that `message.Read` plus `mail.Header` deliver to
`Session.Data` / `processEmailContent`: the Subject value ("" when absent) and
the From / To address lists (`none` models an `AddressList` error). -/
structure EntityMsg where
  subject : String
  fromAddrs : Option (List String)
  toAddrs : Option (List String)
deriving Repr, DecidableEq

/-- `processEmailContent`: overwrite the sender from the From header when it
parses non-empty, add every To-header address as a recipient, and append the
raw bytes as one data segment. Never fails. -/
def processEmailContent (msg : EntityMsg) (data : String)
    (trans : EmailTransaction) : EmailTransaction :=
  let t1 :=
    match msg.fromAddrs with
    | some (a :: _) => { trans with from_ := a }
    | _ => trans
  let t2 :=
    match msg.toAddrs with
    | some addrs => addrs.foldl addRecipient t1
    | none => t1
  appendData t2 data

/-- The subject-qualified key `Session.Data` re-keys the row to. -/
def dataFinalKey (s : Session) (m : EntityMsg) : String :=
  s.sessionID ++ ":" ++ s.activeEmail ++ ":" ++
    (if m.subject = "" then "No Subject" else m.subject)

/-- Outcome of `Session.Data`: a normal return with the updated session and
store, an error return, or the nil-pointer dereference that occurs when
`globalManager.transactions[finalKey]` is absent and `processEmailContent`
writes through the nil `*EmailTransaction`. -/
inductive DataOutcome where
  | ok (s : Session) (gm : TransactionManager)
  | err (msg : String)
  | panicNil
deriving Repr, DecidableEq

/-- `Session.Data`: require an active key; read the stream (`readOk` models
`io.Copy`); parse the message (`parsed` models `message.Read`); re-key the row
by subject when it exists, refreshing its timestamp; finally run
`processEmailContent` on whatever row sits under the final key. -/
def sessionData (s : Session) (gm : TransactionManager) (readOk : Bool)
    (parsed : Option EntityMsg) (d : String) (now : Nat) : DataOutcome :=
  if s.currentKey = "" then .err "no active transaction"
  else if !readOk then .err "read failed"
  else
    match parsed with
    | none => .err "parse failed"
    | some m =>
      let finalKey := dataFinalKey s m
      match mapLookup gm.transactions s.currentKey with
      | some tr =>
        let tx1 := mapErase (mapInsert gm.transactions finalKey tr) s.currentKey
        let tm1 := mapErase (mapInsert gm.timeouts finalKey now) s.currentKey
        let s1 := { s with currentKey := finalKey }
        match mapLookup tx1 finalKey with
        | some t => .ok s1 ⟨mapInsert tx1 finalKey (processEmailContent m d t), tm1⟩
        | none => .panicNil
      | none =>
        match mapLookup gm.transactions finalKey with
        | some t => .ok s ⟨mapInsert gm.transactions finalKey (processEmailContent m d t), gm.timeouts⟩
        | none => .panicNil

/-- `Session.Reset`: delete the current row (if any) and clear the session's
key, active email and pending keys; never fails. -/
def sessionReset (s : Session) (gm : TransactionManager) :
    Session × TransactionManager :=
  let gm' :=
    if s.currentKey = "" then gm
    else
      { transactions := mapErase gm.transactions s.currentKey,
        timeouts := mapErase gm.timeouts s.currentKey }
  ({ s with currentKey := "", activeEmail := "", pendingKeys := [] }, gm')

/-- One MIME part as the `mail.CreateReader` walk delivers it to
`processEmail`: either an inline part (content type, Content-ID header value,
body bytes) or an attachment part (filename, content type, body bytes). -/
inductive MimePart where
  | inlinePart (contentType : String) (contentID : String) (body : String)
  | attachmentPart (filename : String) (contentType : String) (body : String)
deriving Repr, DecidableEq

/-- What `mail.CreateReader` delivers to `processEmail`: the Subject ("" when
absent), the To / Cc address lists (`none` models an `AddressList` error), the
MIME parts in document order, and an optional `NextPart` error that ends the
walk after those parts. -/
structure MailMsg where
  subject : String
  toAddrs : Option (List String)
  ccAddrs : Option (List String)
  parts : List MimePart
  walkErr : Option String
deriving Repr, DecidableEq

/-- A Graph API recipient object. -/
structure Recipient where
  address : String
deriving Repr, DecidableEq

/-- A Graph API file attachment object. -/
structure Attachment where
  odataType : String
  name : String
  contentType : String
  contentBytes : String
deriving Repr, DecidableEq

/-- The Graph `sendMail` payload built by `buildGraphMessage`. -/
structure GraphMessage where
  subject : String
  bodyContentType : String
  bodyContent : String
  toRecipients : List Recipient
  ccRecipients : List Recipient
  bccRecipients : List Recipient
  attachments : List Attachment
  saveToSentItems : Bool
deriving Repr, DecidableEq

/-- `buildRecipients`: an explicit empty array for an empty list, else one
address object per entry. -/
def buildRecipients (list : List String) : List Recipient :=
  if list.length = 0 then [] else list.map Recipient.mk

/-- `buildGraphMessage`: assemble the payload with `saveToSentItems = false`. -/
def buildGraphMessage (subject bodyContentType messageBody : String)
    (toList ccList bccList : List String) (attachments : List Attachment) :
    GraphMessage :=
  { subject := subject, bodyContentType := bodyContentType,
    bodyContent := messageBody,
    toRecipients := buildRecipients toList,
    ccRecipients := buildRecipients ccList,
    bccRecipients := buildRecipients bccList,
    attachments := attachments, saveToSentItems := false }

/-- The lowercased To/Cc addresses, i.e. the keys of the `rcptMap` set that
`processEmail` builds while parsing the To and Cc headers. -/
def knownRecipientKeys (msg : MailMsg) : List String :=
  (msg.toAddrs.getD []).map lowerStr ++ (msg.ccAddrs.getD []).map lowerStr

/-- The BCC classification loop of `processEmail`: every protocol recipient
whose lowercased address is not in `rcptMap` goes to the BCC list. -/
def classifyBcc (msg : MailMsg) (protoRcpts : List String) : List String :=
  protoRcpts.filter (fun r => !((knownRecipientKeys msg).contains (lowerStr r)))

/-- The image content types handled by the inline-image case of the walk. -/
def isImageType (ct : String) : Bool :=
  ct == "image/png" || ct == "image/jpeg" || ct == "image/jpg" ||
    ct == "image/bmp" || ct == "image/gif"

/-- Mutable state of the MIME walk in `processEmail`. -/
structure WalkState where
  textBody : String
  htmlBody : String
  attachments : List Attachment
deriving Repr, DecidableEq

/-- One iteration of the MIME walk: first text/plain and text/html parts are
captured; an inline image is base64-encoded and substituted for its `cid:`
reference immediately, but only into the HTML captured so far; an attachment
is appended to the attachments array. -/
def stepPart (st : WalkState) (p : MimePart) : WalkState :=
  match p with
  | .inlinePart contentType contentID body =>
    if contentType = "text/plain" then
      if st.textBody = "" then { st with textBody := body } else st
    else if contentType = "text/html" then
      if st.htmlBody = "" then { st with htmlBody := body } else st
    else if isImageType contentType then
      if st.htmlBody ≠ "" then
        { st with htmlBody := (replaceAll st.htmlBody
            ("cid:" ++ trimCutset contentID ['<', '>'])
            ("data:" ++ contentType ++ ";base64," ++ base64EncodeStr body)) }
      else st
    else st
  | .attachmentPart filename contentType body =>
    { st with attachments := st.attachments ++
        [⟨"#microsoft.graph.fileAttachment", filename, contentType,
          base64EncodeStr body⟩] }

/-- The whole MIME walk of `processEmail`, starting from empty bodies and no
attachments. -/
def walkParts (parts : List MimePart) : WalkState :=
  parts.foldl stepPart ⟨"", "", []⟩

/-- Result of one `sendMail` call: the returned error (`none` on success) and
the backoff sleeps performed, in order. -/
structure SendOutcome where
  result : Option String
  sleeps : List Nat
deriving Repr, DecidableEq

/-- The retry loop of `sendMail`: `remaining` attempts left, `attempt` the
current index; before every attempt but the first, sleep `1 <<< attempt`
seconds; a failure without the `MailboxInfoStale` marker returns immediately;
exhausting the attempts returns the aggregate error. `results n` is the
outcome of the n-th `doSendMail` call. -/
def sendMailAux (results : Nat → Option String) :
    Nat → Nat → Option String → List Nat → SendOutcome
  | 0, _, lastErr, sleeps =>
    ⟨some ("failed after 3 retries. Last error: " ++ Option.getD lastErr "<nil>"), sleeps⟩
  | remaining + 1, attempt, _, sleeps =>
    let sleeps' := if attempt > 0 then sleeps ++ [2 ^ attempt] else sleeps
    match results attempt with
    | none => ⟨none, sleeps'⟩
    | some e =>
      if strContains e "MailboxInfoStale" then
        sendMailAux results remaining (attempt + 1) (some e) sleeps'
      else ⟨some e, sleeps'⟩

/-- `sendMail`: up to `maxRetries = 3` attempts. -/
def sendMail (results : Nat → Option String) : SendOutcome :=
  sendMailAux results 3 0 none []

/-- Result of `processEmail`: each early-return error, or success carrying the
payload that was sent. -/
inductive ProcResult where
  | errFields
  | errParse
  | errPartRead (e : String)
  | errNoBody
  | errSend (e : String)
  | okSent (g : GraphMessage)
deriving Repr, DecidableEq

/-- Whether `processEmail` returned nil (sent successfully). -/
def ProcResult.sent : ProcResult → Bool
  | .okSent _ => true
  | _ => false

/-- `processEmail`: validate the transaction fields, parse the concatenated
segments (`parsed` models `mail.CreateReader`), extract subject and To/Cc
lists, classify BCC recipients, walk the MIME parts, pick the body (HTML wins
over plain text), fail when no body was found, then build the payload and send
it with `sendMail`. -/
def processEmail (parsed : Option MailMsg) (results : Nat → Option String)
    (trans : EmailTransaction) : ProcResult :=
  if trans.from_ = "" ∨ trans.to_ = [] ∨ trans.dataBuffers = [] then .errFields
  else
    match parsed with
    | none => .errParse
    | some msg =>
      let subject := if msg.subject = "" then "No Subject" else msg.subject
      let toList := msg.toAddrs.getD []
      let ccList := msg.ccAddrs.getD []
      let bccList := classifyBcc msg trans.to_
      let st := walkParts msg.parts
      match msg.walkErr with
      | some e => .errPartRead e
      | none =>
        let messageBody := if st.htmlBody ≠ "" then st.htmlBody else st.textBody
        let bodyContentType := if st.htmlBody ≠ "" then "HTML" else "Text"
        if messageBody = "" then .errNoBody
        else
          match (sendMail results).result with
          | some e => .errSend e
          | none =>
            .okSent (buildGraphMessage subject bodyContentType messageBody
              toList ccList bccList st.attachments)

/-- `Session.Logout`: with no active key, succeed; with an active key whose
row exists, finalize via `processEmail` — on failure return the error with the
store untouched, on success delete the row and its timestamp. The Bool is
true when Logout returns nil. -/
def sessionLogout (s : Session) (gm : TransactionManager)
    (parsed : Option MailMsg) (results : Nat → Option String) :
    Bool × TransactionManager :=
  if s.currentKey = "" then (true, gm)
  else
    match mapLookup gm.transactions s.currentKey with
    | none => (true, gm)
    | some tr =>
      if (processEmail parsed results tr).sent then
        (true,
         { transactions := mapErase gm.transactions s.currentKey,
           timeouts := mapErase gm.timeouts s.currentKey })
      else (false, gm)

/-- The membership test of `addRecipient`: some entry of `l` is a
case-insensitive match for `r`. -/
def seenIn (l : List String) (r : String) : Bool :=
  l.any (fun x => equalFold x r)

/-- The effect of `addRecipient` on the recipient list alone. -/
def insertRcpt (l : List String) (r : String) : List String :=
  if seenIn l r then l else l ++ [r]

/-- Reference function following the spec's words: retain the distinct-by-
case-insensitive addresses in first-seen order (each address is kept, later
case-insensitive duplicates are dropped). -/
def firstSeenDedup : List String → List String
  | [] => []
  | x :: xs => x :: firstSeenDedup (xs.filter (fun y => !(equalFold y x)))
termination_by l => l.length
decreasing_by simp; exact Nat.lt_succ_of_le (List.length_filter_le _ _)

/-- The invariant stated by the spec: no two entries of the list are equal
under case-insensitive comparison. -/
def noCaseDup : List String → Bool
  | [] => true
  | x :: xs => !(xs.any (fun y => equalFold y x)) && noCaseDup xs

theorem equalFold_comm (a b : String) : equalFold a b = equalFold b a := by
  unfold equalFold
  by_cases h : lowerStr a = lowerStr b
  · rw [h]
  · rw [beq_eq_false_iff_ne.mpr h, beq_eq_false_iff_ne.mpr (Ne.symm h)]

theorem addRecipient_to (e : EmailTransaction) (r : String) :
    (addRecipient e r).to_ = insertRcpt e.to_ r := by
  unfold addRecipient insertRcpt seenIn
  by_cases h : e.to_.any (fun x => equalFold x r) <;> simp [h]

theorem foldl_addRecipient_to : ∀ (tos : List String) (e : EmailTransaction),
    (tos.foldl addRecipient e).to_ = tos.foldl insertRcpt e.to_
  | [], _ => rfl
  | x :: xs, e => by
    rw [List.foldl_cons, List.foldl_cons, foldl_addRecipient_to xs _, addRecipient_to]

theorem seenIn_append (l : List String) (x r : String) :
    seenIn (l ++ [x]) r = (seenIn l r || equalFold x r) := by
  simp [seenIn]

theorem foldl_insertRcpt_eq : ∀ (tos acc : List String),
    tos.foldl insertRcpt acc
      = acc ++ firstSeenDedup (tos.filter (fun r => !(seenIn acc r)))
  | [], acc => by simp [firstSeenDedup]
  | x :: xs, acc => by
    by_cases hs : seenIn acc x
    · rw [List.foldl_cons]
      have h1 : insertRcpt acc x = acc := by simp [insertRcpt, hs]
      have h2 : (x :: xs).filter (fun r => !(seenIn acc r))
          = xs.filter (fun r => !(seenIn acc r)) := by
        simp [List.filter_cons, hs]
      rw [h1, foldl_insertRcpt_eq xs acc, h2]
    · rw [List.foldl_cons]
      have h1 : insertRcpt acc x = acc ++ [x] := by simp [insertRcpt, hs]
      have h2 : (x :: xs).filter (fun r => !(seenIn acc r))
          = x :: xs.filter (fun r => !(seenIn acc r)) := by
        simp [List.filter_cons, hs]
      rw [h1, foldl_insertRcpt_eq xs (acc ++ [x]), h2, firstSeenDedup]
      have h3 : xs.filter (fun r => !(seenIn (acc ++ [x]) r))
          = (xs.filter (fun r => !(seenIn acc r))).filter (fun y => !(equalFold y x)) := by
        rw [List.filter_filter]
        apply List.filter_congr
        intro a _
        rw [seenIn_append, equalFold_comm x a]
        rw [Bool.not_or, Bool.and_comm]
      rw [h3]
      simp

theorem foldl_insertRcpt_nil (tos : List String) :
    tos.foldl insertRcpt [] = firstSeenDedup tos := by
  rw [foldl_insertRcpt_eq]
  have : tos.filter (fun r => !(seenIn [] r)) = tos := by
    simp [seenIn]
  rw [this]
  simp

theorem mem_firstSeenDedup : ∀ (l : List String) (y : String),
    y ∈ firstSeenDedup l → y ∈ l
  | [], y => by simp [firstSeenDedup]
  | x :: xs, y => by
    intro h
    rw [firstSeenDedup] at h
    rcases List.mem_cons.mp h with h | h
    · exact h ▸ List.mem_cons_self x xs
    · exact List.mem_cons_of_mem x (List.mem_of_mem_filter (mem_firstSeenDedup _ y h))
termination_by l => l.length
decreasing_by simp; exact Nat.lt_succ_of_le (List.length_filter_le _ _)

theorem noCaseDup_firstSeenDedup : ∀ (l : List String),
    noCaseDup (firstSeenDedup l) = true
  | [] => by simp [firstSeenDedup, noCaseDup]
  | x :: xs => by
    rw [firstSeenDedup, noCaseDup, Bool.and_eq_true]
    refine ⟨?_, noCaseDup_firstSeenDedup _⟩
    rw [Bool.not_eq_true', List.any_eq_false]
    intro y hy
    have hmem := mem_firstSeenDedup _ y hy
    have hp := List.of_mem_filter hmem
    simpa using hp
termination_by l => l.length
decreasing_by simp; exact Nat.lt_succ_of_le (List.length_filter_le _ _)

theorem firstSeenDedup_sublist : ∀ (l : List String),
    (firstSeenDedup l).Sublist l
  | [] => by simp [firstSeenDedup]
  | x :: xs => by
    rw [firstSeenDedup]
    exact List.Sublist.cons₂ x ((firstSeenDedup_sublist _).trans (List.filter_sublist _))
termination_by l => l.length
decreasing_by simp; exact Nat.lt_succ_of_le (List.length_filter_le _ _)

theorem noCaseDup_append_singleton : ∀ (l : List String) (r : String),
    noCaseDup l = true → seenIn l r = false → noCaseDup (l ++ [r]) = true
  | [], r => by simp [noCaseDup]
  | x :: t, r => by
    intro h1 h2
    rw [noCaseDup, Bool.and_eq_true] at h1
    rw [seenIn, List.any_cons, Bool.or_eq_false_iff] at h2
    rw [List.cons_append, noCaseDup, Bool.and_eq_true]
    constructor
    · rw [Bool.not_eq_true', List.any_append, Bool.or_eq_false_iff]
      refine ⟨by simpa using h1.1, ?_⟩
      rw [List.any_cons, List.any_nil, Bool.or_false, equalFold_comm]
      exact h2.1
    · refine noCaseDup_append_singleton t r h1.2 ?_
      rw [seenIn]
      exact h2.2

theorem noCaseDup_insertRcpt (l : List String) (r : String)
    (h : noCaseDup l = true) : noCaseDup (insertRcpt l r) = true := by
  unfold insertRcpt
  by_cases hs : seenIn l r
  · simpa [hs] using h
  · have hs' : seenIn l r = false := by simpa using hs
    simp only [hs, if_false, Bool.false_eq_true]
    exact noCaseDup_append_singleton l r h hs'

theorem noCaseDup_foldl_insertRcpt : ∀ (addrs acc : List String),
    noCaseDup acc = true → noCaseDup (addrs.foldl insertRcpt acc) = true
  | [], _ => fun h => by simpa using h
  | a :: as, acc => fun h => by
    rw [List.foldl_cons]
    exact noCaseDup_foldl_insertRcpt as _ (noCaseDup_insertRcpt acc a h)

theorem processEmailContent_noCaseDup (m : EntityMsg) (d : String)
    (e : EmailTransaction) (h : noCaseDup e.to_ = true) :
    noCaseDup (processEmailContent m d e).to_ = true := by
  rcases m with ⟨subj, fromA, toA⟩
  rcases fromA with _ | fl
  · rcases toA with _ | addrs
    · simpa [processEmailContent, appendData] using h
    · rw [processEmailContent]
      simp only [appendData, foldl_addRecipient_to]
      exact noCaseDup_foldl_insertRcpt addrs e.to_ h
  · rcases fl with _ | ⟨a, as⟩ <;> rcases toA with _ | addrs
    · simpa [processEmailContent, appendData] using h
    · rw [processEmailContent]
      simp only [appendData, foldl_addRecipient_to]
      exact noCaseDup_foldl_insertRcpt addrs e.to_ h
    · simpa [processEmailContent, appendData] using h
    · rw [processEmailContent]
      simp only [appendData, foldl_addRecipient_to]
      exact noCaseDup_foldl_insertRcpt addrs e.to_ h

/-- C9: a rcpt(to) call on a session with no active transaction (no MAIL
preceded it) fails with the protocol-sequence error "no active transaction"
and leaves the shared store unchanged — no transaction row is created. -/
theorem C9_rcpt_without_mail_fails (s : Session) (gm : TransactionManager)
    (to_ : String) (now : Nat) (hk : s.currentKey = "") :
    sessionRcpt s gm to_ now = (some "no active transaction", gm) := by
  simp [sessionRcpt, hk]

/-- Witness for C9: a fresh session against a non-trivial store. -/
theorem C9_witness :
    (⟨"sid", "", "", []⟩ : Session).currentKey = ""
    ∧ sessionRcpt ⟨"sid", "", "", []⟩
        ⟨[("k", ⟨"a@x", [], [], [], []⟩)], [("k", 3)]⟩ "c@co" 5
      = (some "no active transaction", ⟨[("k", ⟨"a@x", [], [], [], []⟩)], [("k", 3)]⟩) :=
  ⟨rfl, C9_rcpt_without_mail_fails _ _ "c@co" 5 rfl⟩

/-- C2: evaluating `sendMail` at the claim's input — two transient
"MailboxInfoStale" failures, then success — returns overall success after
exactly two backoff sleeps, but the sleeps last 2 and then 4 time units
(`1 << attempt` at attempt 1 and 2), not the 1 and then 2 units stated by the
claim and by the code's own comment ("Exponential backoff: 1s, 2s, 4s"): the
first scheduled backoff of 1 unit is never slept. -/
theorem C2_sendMail_two_stale_failures_then_success :
    sendMail (fun n => if n ≤ 1 then some "x MailboxInfoStale" else none)
      = ⟨none, [2, 4]⟩ := by decide

/-- C10: `Session.Data` is not total over reachable store states. After the
cleanup sweep reclaims the session's row (stamped at time 0, swept at time
1000 > 300), a data() call whose session key is still set finds no row under
the current key, looks up `transactions[finalKey]`, gets the nil zero value
and `processEmailContent` dereferences it — a nil-pointer panic, not an error
return as the claim states. -/
theorem C10_data_nil_row_panics :
    cleanup ⟨[("sid:a@x:5", ⟨"a@x", ["b@x"], [], [], []⟩)], [("sid:a@x:5", 0)]⟩ 1000
      = ⟨[], []⟩
    ∧ sessionData ⟨"sid", "sid:a@x:5", "a@x", []⟩ ⟨[], []⟩
        true (some ⟨"Hi", none, none⟩) "d" 1001
      = .panicNil := by decide

/-- C3 counterexample: the session holds the incomplete row "oldkey"; after
`Session.Mail` the new row exists but the prior row is still present in the
store — refuting the claim that a prior incomplete transaction is no longer
present in the store after mail(from). -/
theorem C3_cex_prior_row_not_discarded :
    mapLookup ((sessionMail ⟨"sid", "oldkey", "a@x", []⟩
        ⟨[("oldkey", ⟨"a@x", ["b@x"], [], [], []⟩)], [("oldkey", 1)]⟩ "a@x" 5 6).2).transactions
      "oldkey"
      = some ⟨"a@x", ["b@x"], [], [], []⟩ := by decide

/-- C3 (amended): mail(from) always succeeds and opens a fresh row (with a
fresh timestamp) keyed by {session id, from, timestamp}, but it does not
discard the session's prior incomplete row: every other key of the store,
including that prior row, is left untouched — the old row is merely orphaned
and is reclaimed later by the background cleanup. -/
theorem C3_mail_opens_row_preserves_others (s : Session) (gm : TransactionManager)
    (from_ : String) (transactionTime now : Nat) (k : String)
    (hk : k ≠ s.sessionID ++ ":" ++ from_ ++ ":" ++ toString transactionTime) :
    (sessionMail s gm from_ transactionTime now).1.currentKey
        = s.sessionID ++ ":" ++ from_ ++ ":" ++ toString transactionTime
    ∧ (sessionMail s gm from_ transactionTime now).1.activeEmail = from_
    ∧ mapLookup (sessionMail s gm from_ transactionTime now).2.transactions
        (s.sessionID ++ ":" ++ from_ ++ ":" ++ toString transactionTime)
        = some ⟨from_, [], [], [], []⟩
    ∧ mapLookup (sessionMail s gm from_ transactionTime now).2.timeouts
        (s.sessionID ++ ":" ++ from_ ++ ":" ++ toString transactionTime) = some now
    ∧ mapLookup (sessionMail s gm from_ transactionTime now).2.transactions k
        = mapLookup gm.transactions k
    ∧ mapLookup (sessionMail s gm from_ transactionTime now).2.timeouts k
        = mapLookup gm.timeouts k := by
  exact ⟨rfl, rfl, mapLookup_insert_self _ _ _, mapLookup_insert_self _ _ _,
    mapLookup_insert_ne _ _ _ _ hk, mapLookup_insert_ne _ _ _ _ hk⟩

/-- Witness for C3 at the counterexample state. -/
theorem C3_witness :
    ("oldkey" : String) ≠ "sid" ++ ":" ++ "a@x" ++ ":" ++ toString 5
    ∧ ((sessionMail ⟨"sid", "oldkey", "a@x", []⟩
          ⟨[("oldkey", ⟨"a@x", ["b@x"], [], [], []⟩)], [("oldkey", 1)]⟩ "a@x" 5 6).1.currentKey
        = "sid" ++ ":" ++ "a@x" ++ ":" ++ toString 5
      ∧ (sessionMail ⟨"sid", "oldkey", "a@x", []⟩
          ⟨[("oldkey", ⟨"a@x", ["b@x"], [], [], []⟩)], [("oldkey", 1)]⟩ "a@x" 5 6).1.activeEmail
        = "a@x"
      ∧ mapLookup ((sessionMail ⟨"sid", "oldkey", "a@x", []⟩
          ⟨[("oldkey", ⟨"a@x", ["b@x"], [], [], []⟩)], [("oldkey", 1)]⟩ "a@x" 5 6).2).transactions
          ("sid" ++ ":" ++ "a@x" ++ ":" ++ toString 5)
        = some ⟨"a@x", [], [], [], []⟩
      ∧ mapLookup ((sessionMail ⟨"sid", "oldkey", "a@x", []⟩
          ⟨[("oldkey", ⟨"a@x", ["b@x"], [], [], []⟩)], [("oldkey", 1)]⟩ "a@x" 5 6).2).timeouts
          ("sid" ++ ":" ++ "a@x" ++ ":" ++ toString 5)
        = some 6
      ∧ mapLookup ((sessionMail ⟨"sid", "oldkey", "a@x", []⟩
          ⟨[("oldkey", ⟨"a@x", ["b@x"], [], [], []⟩)], [("oldkey", 1)]⟩ "a@x" 5 6).2).transactions
          "oldkey"
        = mapLookup [("oldkey", (⟨"a@x", ["b@x"], [], [], []⟩ : EmailTransaction))] "oldkey"
      ∧ mapLookup ((sessionMail ⟨"sid", "oldkey", "a@x", []⟩
          ⟨[("oldkey", ⟨"a@x", ["b@x"], [], [], []⟩)], [("oldkey", 1)]⟩ "a@x" 5 6).2).timeouts
          "oldkey"
        = mapLookup [("oldkey", 1)] "oldkey") :=
  ⟨by decide, C3_mail_opens_row_preserves_others _ _ "a@x" 5 6 "oldkey" (by decide)⟩

/-- C1 counterexample: finalization fails at QUIT (delivery returns "boom"),
and when logout() returns, the transaction row is still in the store —
refuting the claim that the row is removed regardless of delivery outcome. -/
theorem C1_cex_row_retained_after_failed_logout :
    sessionLogout ⟨"sid", "k", "a@x", []⟩
      ⟨[("k", ⟨"a@x", ["b@x"], [], [], ["raw"]⟩)], [("k", 0)]⟩
      (some ⟨"Hi", some ["b@x"], some [], [.inlinePart "text/plain" "" "hello"], none⟩)
      (fun _ => some "boom")
      = (false, ⟨[("k", ⟨"a@x", ["b@x"], [], [], ["raw"]⟩)], [("k", 0)]⟩)
    ∧ ¬ (mapLookup (sessionLogout ⟨"sid", "k", "a@x", []⟩
        ⟨[("k", ⟨"a@x", ["b@x"], [], [], ["raw"]⟩)], [("k", 0)]⟩
        (some ⟨"Hi", some ["b@x"], some [], [.inlinePart "text/plain" "" "hello"], none⟩)
        (fun _ => some "boom")).2.transactions "k" = none) := by decide

/-- C1 (amended): with an active key whose row exists, logout() removes the
row and its timestamp entry only when finalization succeeds; when
finalization (Content Transformer → Delivery Client) fails, logout() returns
the failure and leaves the store unchanged — the completed-but-failed row is
retained until background reclamation. -/
theorem C1_logout_removes_row_only_on_success (s : Session)
    (gm : TransactionManager) (parsed : Option MailMsg)
    (results : Nat → Option String) (tr : EmailTransaction)
    (hk : s.currentKey ≠ "")
    (hrow : mapLookup gm.transactions s.currentKey = some tr) :
    sessionLogout s gm parsed results
      = if (processEmail parsed results tr).sent then
          (true, ⟨mapErase gm.transactions s.currentKey, mapErase gm.timeouts s.currentKey⟩)
        else (false, gm) := by
  unfold sessionLogout
  rw [if_neg hk, hrow]

/-- Witness for C1 at the counterexample state (finalization fails). -/
theorem C1_witness :
    (⟨"sid", "k", "a@x", []⟩ : Session).currentKey ≠ ""
    ∧ mapLookup (⟨[("k", ⟨"a@x", ["b@x"], [], [], ["raw"]⟩)], [("k", 0)]⟩ :
        TransactionManager).transactions (⟨"sid", "k", "a@x", []⟩ : Session).currentKey
      = some ⟨"a@x", ["b@x"], [], [], ["raw"]⟩
    ∧ sessionLogout ⟨"sid", "k", "a@x", []⟩
        ⟨[("k", ⟨"a@x", ["b@x"], [], [], ["raw"]⟩)], [("k", 0)]⟩
        (some ⟨"Hi", some ["b@x"], some [], [.inlinePart "text/plain" "" "hello"], none⟩)
        (fun _ => some "boom")
      = if (processEmail
            (some ⟨"Hi", some ["b@x"], some [], [.inlinePart "text/plain" "" "hello"], none⟩)
            (fun _ => some "boom") ⟨"a@x", ["b@x"], [], [], ["raw"]⟩).sent then
          (true, ⟨mapErase [("k", ⟨"a@x", ["b@x"], [], [], ["raw"]⟩)] "k",
                  mapErase [("k", 0)] "k"⟩)
        else (false, ⟨[("k", ⟨"a@x", ["b@x"], [], [], ["raw"]⟩)], [("k", 0)]⟩) :=
  ⟨by decide, by decide,
    C1_logout_removes_row_only_on_success _ _ _ _ _ (by decide) (by decide)⟩

/-- C4 counterexample: DATA on a session whose active transaction has zero
recipients (MAIL issued, no RCPT) does not fail: the call returns ok, re-keys
the row by subject and appends the data segment — refuting the claimed
at-least-one-recipient precondition of data(stream). -/
theorem C4_cex_data_zero_recipients_succeeds :
    sessionData ⟨"sid", "k", "a@x", []⟩
      ⟨[("k", ⟨"a@x", [], [], [], []⟩)], [("k", 0)]⟩
      true (some ⟨"Hi", none, none⟩) "body" 7
      = .ok ⟨"sid", "sid:a@x:Hi", "a@x", []⟩
          ⟨[("sid:a@x:Hi", ⟨"a@x", [], [], [], ["body"]⟩)], [("sid:a@x:Hi", 7)]⟩ := by decide

/-- C4 (amended): data(stream) checks only that the session has an active
transaction key — it never inspects the recipient list. With an active key
whose row exists (and a readable, parsable stream whose subject key differs
from the provisional key), the call succeeds even for a zero-recipient
transaction: the row is moved to the subject-qualified key with a refreshed
timestamp and `processEmailContent` appends the segment. A call with no
active key fails with the protocol-sequence error, whatever the stream. -/
theorem C4_data_requires_only_active_key
    (s : Session) (gm : TransactionManager) (m : EntityMsg) (d : String) (now : Nat)
    (tr : EmailTransaction)
    (s2 : Session) (gm2 : TransactionManager) (readOk2 : Bool)
    (parsed2 : Option EntityMsg) (d2 : String) (now2 : Nat)
    (hk : s.currentKey ≠ "")
    (hrow : mapLookup gm.transactions s.currentKey = some tr)
    (hne : dataFinalKey s m ≠ s.currentKey)
    (hk2 : s2.currentKey = "") :
    sessionData s gm true (some m) d now
      = .ok { s with currentKey := dataFinalKey s m }
          ⟨mapInsert (mapErase (mapInsert gm.transactions (dataFinalKey s m) tr) s.currentKey)
             (dataFinalKey s m) (processEmailContent m d tr),
           mapErase (mapInsert gm.timeouts (dataFinalKey s m) now) s.currentKey⟩
    ∧ sessionData s2 gm2 readOk2 parsed2 d2 now2 = .err "no active transaction" := by
  constructor
  · have hl : mapLookup
        (mapErase (mapInsert gm.transactions (dataFinalKey s m) tr) s.currentKey)
        (dataFinalKey s m) = some tr := by
      rw [mapLookup_erase_ne _ _ _ hne, mapLookup_insert_self]
    simp only [sessionData, if_neg hk, Bool.not_true, Bool.false_eq_true, if_false, hrow, hl]
  · simp [sessionData, hk2]

/-- Witness for C4: the zero-recipient state of the counterexample plus a
keyless session. -/
theorem C4_witness :
    (⟨"sid", "k", "a@x", []⟩ : Session).currentKey ≠ ""
    ∧ mapLookup (⟨[("k", ⟨"a@x", [], [], [], []⟩)], [("k", 0)]⟩ :
        TransactionManager).transactions (⟨"sid", "k", "a@x", []⟩ : Session).currentKey
      = some ⟨"a@x", [], [], [], []⟩
    ∧ dataFinalKey ⟨"sid", "k", "a@x", []⟩ ⟨"Hi", none, none⟩
      ≠ (⟨"sid", "k", "a@x", []⟩ : Session).currentKey
    ∧ (⟨"sid", "", "", []⟩ : Session).currentKey = ""
    ∧ (sessionData ⟨"sid", "k", "a@x", []⟩
          ⟨[("k", ⟨"a@x", [], [], [], []⟩)], [("k", 0)]⟩ true (some ⟨"Hi", none, none⟩) "body" 7
        = .ok { (⟨"sid", "k", "a@x", []⟩ : Session) with
              currentKey := dataFinalKey ⟨"sid", "k", "a@x", []⟩ ⟨"Hi", none, none⟩ }
            ⟨mapInsert (mapErase (mapInsert [("k", ⟨"a@x", [], [], [], []⟩)]
                 (dataFinalKey ⟨"sid", "k", "a@x", []⟩ ⟨"Hi", none, none⟩)
                 ⟨"a@x", [], [], [], []⟩) "k")
               (dataFinalKey ⟨"sid", "k", "a@x", []⟩ ⟨"Hi", none, none⟩)
               (processEmailContent ⟨"Hi", none, none⟩ "body" ⟨"a@x", [], [], [], []⟩),
             mapErase (mapInsert [("k", 0)]
               (dataFinalKey ⟨"sid", "k", "a@x", []⟩ ⟨"Hi", none, none⟩) 7) "k"⟩
      ∧ sessionData ⟨"sid", "", "", []⟩ ⟨[], []⟩ false none "x" 9
        = .err "no active transaction") :=
  ⟨by decide, by decide, by decide, rfl,
    C4_data_requires_only_active_key _ _ ⟨"Hi", none, none⟩ "body" 7 _ _ ⟨[], []⟩ false none "x" 9
      (by decide) (by decide) (by decide) rfl⟩

/-- C5 counterexample: a message whose inline image part precedes its HTML
part. The transformed body still contains the literal `cid:i` reference and
no data URI — refuting the claim that the substitution is applied after the
full walk independently of part order. -/
theorem C5_cex_image_before_html_not_substituted :
    processEmail
      (some ⟨"Hi", some ["b@x"], some [],
        [.inlinePart "image/png" "<i>" "B", .inlinePart "text/html" "" "<p>cid:i</p>"], none⟩)
      (fun _ => none) ⟨"a@x", ["b@x"], [], [], ["raw"]⟩
      = .okSent ⟨"Hi", "HTML", "<p>cid:i</p>", [⟨"b@x"⟩], [], [], [], false⟩
    ∧ strContains "<p>cid:i</p>" "cid:i" = true
    ∧ strContains "<p>cid:i</p>" "data:image/png" = false := by decide

/-- C5 (amended): the cid substitution is applied immediately when each image
part is walked, into whatever HTML has been captured so far — so the result
depends on part order: with the HTML part first, the cid reference is
replaced by the `data:<type>;base64,<payload>` URI; with the image part
first, the HTML is captured afterwards and keeps its cid reference
unreplaced. -/
theorem C5_substitution_iff_html_first (h ct cid cid2 b : String)
    (hct : isImageType ct = true) (hh : h ≠ "") :
    (walkParts [.inlinePart "text/html" cid2 h, .inlinePart ct cid b]).htmlBody
      = replaceAll h ("cid:" ++ trimCutset cid ['<', '>'])
          ("data:" ++ ct ++ ";base64," ++ base64EncodeStr b)
    ∧ (walkParts [.inlinePart ct cid b, .inlinePart "text/html" cid2 h]).htmlBody = h := by
  have hct' : (((ct = "image/png" ∨ ct = "image/jpeg") ∨ ct = "image/jpg") ∨
      ct = "image/bmp") ∨ ct = "image/gif" := by
    simpa [isImageType, beq_iff_eq] using hct
  rw [or_assoc, or_assoc, or_assoc] at hct'
  rcases hct' with h1 | h1 | h1 | h1 | h1 <;> subst h1 <;>
    exact ⟨by simp [walkParts, stepPart, isImageType, hh],
           by simp [walkParts, stepPart, isImageType]⟩

/-- Witness for C5 at a concrete png image and HTML body. -/
theorem C5_witness :
    isImageType "image/png" = true
    ∧ ("<p>cid:i</p>" : String) ≠ ""
    ∧ ((walkParts [.inlinePart "text/html" "" "<p>cid:i</p>",
          .inlinePart "image/png" "<i>" "B"]).htmlBody
        = replaceAll "<p>cid:i</p>" ("cid:" ++ trimCutset "<i>" ['<', '>'])
            ("data:" ++ "image/png" ++ ";base64," ++ base64EncodeStr "B")
      ∧ (walkParts [.inlinePart "image/png" "<i>" "B",
          .inlinePart "text/html" "" "<p>cid:i</p>"]).htmlBody = "<p>cid:i</p>") :=
  ⟨by decide, by decide,
    C5_substitution_iff_html_first "<p>cid:i</p>" "image/png" "<i>" "" "B"
      (by decide) (by decide)⟩

theorem buildRecipients_eq_map (l : List String) :
    buildRecipients l = l.map Recipient.mk := by
  cases l <;> simp [buildRecipients]

theorem mem_buildRecipients_classify (msg : MailMsg) (l : List String) (r : String) :
    Recipient.mk r ∈ buildRecipients (classifyBcc msg l)
      ↔ (r ∈ l ∧ (knownRecipientKeys msg).contains (lowerStr r) = false) := by
  rw [buildRecipients_eq_map]
  simp [classifyBcc, Recipient.mk.injEq]

/-- C6: whenever `processEmail` succeeds, an address appears in the payload's
bccRecipients exactly when it is a protocol recipient of the transaction that
is absent — under case-insensitive comparison — from the parsed To and Cc
headers; in particular recipients {a@x, b@x} with a To header naming only
a@x put b@x in bccRecipients (see the witness). -/
theorem C6_bcc_classification (tr : EmailTransaction) (msg : MailMsg)
    (results : Nat → Option String) (g : GraphMessage) (r : String)
    (h : processEmail (some msg) results tr = .okSent g) :
    (Recipient.mk r ∈ g.bccRecipients
      ↔ (r ∈ tr.to_ ∧ (knownRecipientKeys msg).contains (lowerStr r) = false)) := by
  simp only [processEmail] at h
  repeat' split at h
  all_goals first
    | (injection h with h; subst h; exact mem_buildRecipients_classify msg tr.to_ r)
    | injection h

/-- Witness for C6: transaction recipients {a@x, b@x}, To header only a@x —
b@x is classified Bcc. -/
theorem C6_witness :
    processEmail (some ⟨"Hi", some ["a@x"], none, [.inlinePart "text/plain" "" "hello"], none⟩)
      (fun _ => none) ⟨"s@x", ["a@x", "b@x"], [], [], ["raw"]⟩
      = .okSent ⟨"Hi", "Text", "hello", [⟨"a@x"⟩], [], [⟨"b@x"⟩], [], false⟩
    ∧ (Recipient.mk "b@x" ∈ (⟨"Hi", "Text", "hello", [⟨"a@x"⟩], [], [⟨"b@x"⟩], [], false⟩ :
          GraphMessage).bccRecipients
        ↔ ("b@x" ∈ (⟨"s@x", ["a@x", "b@x"], [], [], ["raw"]⟩ : EmailTransaction).to_
          ∧ (knownRecipientKeys ⟨"Hi", some ["a@x"], none,
              [.inlinePart "text/plain" "" "hello"], none⟩).contains (lowerStr "b@x")
            = false)) :=
  ⟨by decide,
    C6_bcc_classification ⟨"s@x", ["a@x", "b@x"], [], [], ["raw"]⟩
      ⟨"Hi", some ["a@x"], none, [.inlinePart "text/plain" "" "hello"], none⟩
      (fun _ => none)
      ⟨"Hi", "Text", "hello", [⟨"a@x"⟩], [], [⟨"b@x"⟩], [], false⟩ "b@x" (by decide)⟩

/-- C7: whenever `processEmail` succeeds, the payload body is the captured
HTML part with contentType "HTML" when a non-empty HTML part exists (even if
a plain-text part is also present), otherwise the plain-text part with
contentType "Text"; and a parsable message in a complete transaction whose
walk finds neither a plain-text nor an HTML body (e.g. attachment-only)
makes `processEmail` fail with the no-body content-policy error instead of
sending. -/
theorem C7_body_selection (tr : EmailTransaction) (msg : MailMsg)
    (results : Nat → Option String) (g : GraphMessage)
    (tr2 : EmailTransaction) (msg2 : MailMsg) (results2 : Nat → Option String)
    (h : processEmail (some msg) results tr = .okSent g)
    (hf : tr2.from_ ≠ "") (ht : tr2.to_ ≠ []) (hd : tr2.dataBuffers ≠ [])
    (hw : msg2.walkErr = none)
    (hhtml : (walkParts msg2.parts).htmlBody = "")
    (htext : (walkParts msg2.parts).textBody = "") :
    (g.bodyContent
        = (if (walkParts msg.parts).htmlBody ≠ "" then (walkParts msg.parts).htmlBody
           else (walkParts msg.parts).textBody)
      ∧ g.bodyContentType = (if (walkParts msg.parts).htmlBody ≠ "" then "HTML" else "Text"))
    ∧ processEmail (some msg2) results2 tr2 = .errNoBody := by
  constructor
  · simp only [processEmail] at h
    repeat' split at h
    all_goals first
      | (injection h with h; subst h; constructor <;> simp_all [buildGraphMessage])
      | injection h
  · simp only [processEmail]
    rw [if_neg (by simp [hf, ht, hd]), hw]
    simp [hhtml, htext]

/-- Witness for C7: a message holding both a plain-text and an HTML part
(HTML wins), and an attachment-only message (no-body failure). -/
theorem C7_witness :
    processEmail
      (some ⟨"Hi", some ["b@x"], some [],
        [.inlinePart "text/plain" "" "plain", .inlinePart "text/html" "" "<b>h</b>"], none⟩)
      (fun _ => none) ⟨"a@x", ["b@x"], [], [], ["raw"]⟩
      = .okSent ⟨"Hi", "HTML", "<b>h</b>", [⟨"b@x"⟩], [], [], [], false⟩
    ∧ (⟨"a@x", ["b@x"], [], [], ["raw"]⟩ : EmailTransaction).from_ ≠ ""
    ∧ (⟨"a@x", ["b@x"], [], [], ["raw"]⟩ : EmailTransaction).to_ ≠ []
    ∧ (⟨"a@x", ["b@x"], [], [], ["raw"]⟩ : EmailTransaction).dataBuffers ≠ []
    ∧ (⟨"Hi", none, none, [.attachmentPart "f.txt" "text/plain" "z"], none⟩ :
        MailMsg).walkErr = none
    ∧ (walkParts (⟨"Hi", none, none, [.attachmentPart "f.txt" "text/plain" "z"], none⟩ :
        MailMsg).parts).htmlBody = ""
    ∧ (walkParts (⟨"Hi", none, none, [.attachmentPart "f.txt" "text/plain" "z"], none⟩ :
        MailMsg).parts).textBody = ""
    ∧ (((⟨"Hi", "HTML", "<b>h</b>", [⟨"b@x"⟩], [], [], [], false⟩ : GraphMessage).bodyContent
        = (if (walkParts (⟨"Hi", some ["b@x"], some [],
              [.inlinePart "text/plain" "" "plain", .inlinePart "text/html" "" "<b>h</b>"],
              none⟩ : MailMsg).parts).htmlBody ≠ ""
           then (walkParts (⟨"Hi", some ["b@x"], some [],
              [.inlinePart "text/plain" "" "plain", .inlinePart "text/html" "" "<b>h</b>"],
              none⟩ : MailMsg).parts).htmlBody
           else (walkParts (⟨"Hi", some ["b@x"], some [],
              [.inlinePart "text/plain" "" "plain", .inlinePart "text/html" "" "<b>h</b>"],
              none⟩ : MailMsg).parts).textBody)
      ∧ (⟨"Hi", "HTML", "<b>h</b>", [⟨"b@x"⟩], [], [], [], false⟩ :
            GraphMessage).bodyContentType
        = (if (walkParts (⟨"Hi", some ["b@x"], some [],
              [.inlinePart "text/plain" "" "plain", .inlinePart "text/html" "" "<b>h</b>"],
              none⟩ : MailMsg).parts).htmlBody ≠ "" then "HTML" else "Text"))
      ∧ processEmail (some ⟨"Hi", none, none,
          [.attachmentPart "f.txt" "text/plain" "z"], none⟩)
          (fun _ => none) ⟨"a@x", ["b@x"], [], [], ["raw"]⟩
        = .errNoBody) :=
  ⟨by decide, by decide, by decide, by decide, rfl, by decide, by decide,
    C7_body_selection ⟨"a@x", ["b@x"], [], [], ["raw"]⟩
      ⟨"Hi", some ["b@x"], some [],
        [.inlinePart "text/plain" "" "plain", .inlinePart "text/html" "" "<b>h</b>"], none⟩
      (fun _ => none) ⟨"Hi", "HTML", "<b>h</b>", [⟨"b@x"⟩], [], [], [], false⟩
      ⟨"a@x", ["b@x"], [], [], ["raw"]⟩
      ⟨"Hi", none, none, [.attachmentPart "f.txt" "text/plain" "z"], none⟩
      (fun _ => none) (by decide) (by decide) (by decide) (by decide) rfl
      (by decide) (by decide)⟩

/-- C8: after any sequence of rcpt(to) calls on one transaction — modelled by
folding `addRecipient`, the mutation that `Session.Rcpt` performs on the row —
the recipient list equals `firstSeenDedup` of the call sequence: the distinct
addresses under case-insensitive comparison, in first-seen order (a sublist
of the sequence), with no two entries case-insensitively equal; and the
no-duplicate invariant is preserved by every operation that mutates the
recipient list: `addRecipient` (RCPT), `processEmailContent` (DATA's
To-header merge) and `resetAll`. -/
theorem C8_recipient_dedup_invariant (tos : List String) (e0 e : EmailTransaction)
    (r : String) (m : EntityMsg) (d : String)
    (h0 : e0.to_ = []) (hp : noCaseDup e.to_ = true) :
    (tos.foldl addRecipient e0).to_ = firstSeenDedup tos
    ∧ noCaseDup (firstSeenDedup tos) = true
    ∧ (firstSeenDedup tos).Sublist tos
    ∧ noCaseDup (addRecipient e r).to_ = true
    ∧ noCaseDup (processEmailContent m d e).to_ = true
    ∧ noCaseDup (resetAll e).to_ = true := by
  refine ⟨?_, noCaseDup_firstSeenDedup tos, firstSeenDedup_sublist tos, ?_,
    processEmailContent_noCaseDup m d e hp, rfl⟩
  · rw [foldl_addRecipient_to, h0, foldl_insertRcpt_nil]
  · rw [addRecipient_to]
    exact noCaseDup_insertRcpt e.to_ r hp

/-- Witness for C8: the RCPT sequence b@x, B@X (case-only duplicate), c@x on
a fresh row, plus concrete preservation instances. -/
theorem C8_witness :
    (⟨"", [], [], [], []⟩ : EmailTransaction).to_ = []
    ∧ noCaseDup (⟨"", ["p@x"], [], [], []⟩ : EmailTransaction).to_ = true
    ∧ ((["b@x", "B@X", "c@x"].foldl addRecipient ⟨"", [], [], [], []⟩).to_
        = firstSeenDedup ["b@x", "B@X", "c@x"]
      ∧ noCaseDup (firstSeenDedup ["b@x", "B@X", "c@x"]) = true
      ∧ (firstSeenDedup ["b@x", "B@X", "c@x"]).Sublist ["b@x", "B@X", "c@x"]
      ∧ noCaseDup (addRecipient ⟨"", ["p@x"], [], [], []⟩ "P@X").to_ = true
      ∧ noCaseDup (processEmailContent ⟨"", none, some ["q@x"]⟩ "d"
          ⟨"", ["p@x"], [], [], []⟩).to_ = true
      ∧ noCaseDup (resetAll ⟨"", ["p@x"], [], [], []⟩).to_ = true) :=
  ⟨rfl, by decide,
    C8_recipient_dedup_invariant ["b@x", "B@X", "c@x"] ⟨"", [], [], [], []⟩
      ⟨"", ["p@x"], [], [], []⟩ "P@X" ⟨"", none, some ["q@x"]⟩ "d" rfl (by decide)⟩
